import Mathlib

/-!
Verification of the go-confkey field binder (src/confkey.go).

The Go code is embedded shallowly:

* a struct target is a `List Field`; each `Field` carries the struct field's
  name, its `confkey` / `default` / `environment` / `type` tags (absent tags
  are `none`) and its current value (`FieldValue`, which also records the
  reflect kind);
* machine `int`/`int64`/`time.Duration` values are `Int` with explicit
  wrap-around (`toInt64`) and range checks where the Go library performs them;
* the process environment is an association list, `os.LookupEnv` is
  `lookupEnv` (the Go runtime reports the empty variable name as unset);
* the external validator `validator.ValidateStructField` is an opaque
  parameter `validate : Validator` returning `none` (no error) or a message;
* a Go runtime panic (out-of-range index, failed unchecked type assertion)
  is modelled by `none` in an `Option` result;
* Go library error values are collapsed to the error kinds of the spec
  (`ConfkeyError`); their message strings are dropped.
-/

namespace Confkey

/-- Character class of `unicode.IsSpace` as used by `strings.TrimSpace`,
modelled for code points in the Latin-1 range (tab, newline, vertical tab,
form feed, carriage return, space, next line, no-break space).  Go
additionally treats a handful of higher Unicode space code points as white
space; none occur in this development. -/
def isGoSpace (c : Char) : Bool :=
  c.val == 9 || c.val == 10 || c.val == 11 || c.val == 12 || c.val == 13 ||
  c.val == 32 || c.val == 133 || c.val == 160

/-- Model of `strings.TrimSpace`: drop white space from both ends. -/
def trimSpace (s : String) : String :=
  String.mk (((s.data.dropWhile isGoSpace).reverse.dropWhile isGoSpace).reverse)

/-- Model of `strings.Split` for a single-character separator (the only
separators the source uses are ",", ":" and the path list separator, all one
character): empty parts are kept and splitting the empty string yields one
empty part. -/
def splitOnChar (sep : Char) : List Char → List (List Char)
  | [] => [[]]
  | c :: rest =>
    if c == sep then [] :: splitOnChar sep rest
    else
      match splitOnChar sep rest with
      | [] => [[c]]
      | g :: gs => (c :: g) :: gs

/-- `strings.Split value sep` on a string, for a one-character separator. -/
def goSplit (s : String) (sep : Char) : List String :=
  (splitOnChar sep s.data).map String.mk

/-- Model of `os.PathListSeparator` on the (Unix) build platform. -/
def pathListSeparator : Char := ':'

/-- Process environment, a name/value association list. -/
abbrev Env := List (String × String)

/-- Model of `os.LookupEnv`: the Go runtime (`syscall.Getenv`) reports the
empty variable name as unset, otherwise the first binding of the name is
returned. -/
def lookupEnv (env : Env) (key : String) : Option String :=
  if key == "" then none
  else (env.find? (fun p => p.1 == key)).map (fun p => p.2)

/-- Current value of a struct field, which also determines its reflect kind.
`vInt64 isDuration n` covers both plain `int64` fields and `time.Duration`
fields (both have reflect kind `Int64`); `isDuration` records whether the
concrete Go type is `time.Duration`, which the unchecked type assertions in
the source distinguish. -/
inductive FieldValue where
  | vString (s : String)
  | vStringList (xs : List String)
  | vBool (b : Bool)
  | vInt (n : Int)
  | vInt64 (isDuration : Bool) (n : Int)
deriving DecidableEq

/-- Reflect kinds the source dispatches on. -/
inductive Kind where
  | kString
  | kSlice
  | kBool
  | kInt
  | kInt64
deriving DecidableEq

/-- Reflect kind of a field value. -/
def FieldValue.kind : FieldValue → Kind
  | .vString _ => .kString
  | .vStringList _ => .kSlice
  | .vBool _ => .kBool
  | .vInt _ => .kInt
  | .vInt64 _ _ => .kInt64

/-- One exported struct field of the target: its Go name, its `confkey`,
`default`, `environment` and `type` tags (`none` when the tag is absent from
the struct definition) and its current value. -/
structure Field where
  name : String
  confkey : Option String
  deflt : Option String
  environment : Option String
  typeTag : Option String
  value : FieldValue
deriving DecidableEq

/-- Error kinds of the binder (message payloads of the underlying Go errors
are dropped, except the validator's, which the binder propagates verbatim). -/
inductive ConfkeyError where
  | notAPointer
  | fieldNotFound
  | conversionError
  | validationError (msg : String)
deriving DecidableEq

/-- Model of `reflections.GetFieldTag` on an exported, existing struct field:
it returns the tag's text and a nil error; an absent tag yields the empty
string (Go `StructTag.Get` semantics), not an error. -/
def getFieldTag (f : Field) (t : String) : String :=
  if t == "confkey" then f.confkey.getD ""
  else if t == "default" then f.deflt.getD ""
  else if t == "environment" then f.environment.getD ""
  else if t == "type" then f.typeTag.getD ""
  else ""

/-- The `tag` helper (confkey.go:314): the tag text together with
`err == nil`.  For a field reached through `fieldWithKey` the error is always
nil, so the second component is the constant `true`. -/
def tag (f : Field) (t : String) : String × Bool :=
  (getFieldTag f t, true)

/-- `fieldWithKey` (confkey.go:297): name of the first field whose `confkey`
tag equals the requested key. -/
def fieldWithKey (fields : List Field) (key : String) : Except ConfkeyError String :=
  match fields.find? (fun f => (tag f "confkey").1 == key) with
  | some f => .ok f.name
  | none => .error .fieldNotFound

/-- Model of `reflect.Value.FieldByName` / `reflections.GetField`: the first
field with the given name (Go struct field names are unique). -/
def findField (fields : List Field) (item : String) : Option Field :=
  fields.find? (fun f => f.name == item)

/-- In-place assignment through the field's pointer: replace the value of the
first field with the given name. -/
def updateValue (fields : List Field) (item : String) (v : FieldValue) : List Field :=
  match fields with
  | [] => []
  | f :: rest =>
    if f.name == item then { f with value := v } :: rest
    else f :: updateValue rest item v

/-- `strToBool` (confkey.go:325): trim, then match the case-insensitive word
lists of the two regular expressions `(?i)^(1|yes|true|y|t)$` and
`(?i)^(0|no|false|n|f)$` (case folding modelled for ASCII). -/
def strToBool (s : String) : Bool × Option ConfkeyError :=
  let clean := String.mk ((trimSpace s).data.map Char.toLower)
  if clean == "1" || clean == "yes" || clean == "true" || clean == "y" || clean == "t" then
    (true, none)
  else if clean == "0" || clean == "no" || clean == "false" || clean == "n" || clean == "f" then
    (false, none)
  else
    (false, some .conversionError)

/-- Model of `strconv.Atoi`: an optional sign followed by at least one
decimal digit, rejected (`ErrSyntax`/`ErrRange`) when malformed or outside
the signed 64-bit range of the build platform's `int`. -/
def atoi (s : String) : Option Int :=
  let p :=
    match s.data with
    | '+' :: rest => (false, rest)
    | '-' :: rest => (true, rest)
    | cs => (false, cs)
  if p.2.isEmpty || !p.2.all Char.isDigit then none
  else
    let n : Nat := p.2.foldl (fun a c => a * 10 + (c.toNat - 48)) 0
    let v : Int := if p.1 then -(n : Int) else (n : Int)
    if v < -(2 ^ 63) || v > 2 ^ 63 - 1 then none
    else some v

/-- Two's-complement wrap of an integer into the signed 64-bit range, as Go
`int64` arithmetic does on overflow. -/
def toInt64 (n : Int) : Int :=
  ((n + 2 ^ 63) % 2 ^ 64) - 2 ^ 63

/-- The `regexp.MatchString("\\A\\d+\\z", value)` test of the duration branch
(confkey.go:248): a nonempty string of ASCII digits.  The pattern is a valid
regular expression, so the error result of `MatchString` is always nil. -/
def intOnly (s : String) : Bool :=
  !s.data.isEmpty && s.data.all Char.isDigit

/-- `time.leadingInt`: consume leading digits into an integer, `none` on
signed 64-bit overflow. -/
def leadingInt : Int → List Char → Option (Int × List Char)
  | x, [] => some (x, [])
  | x, c :: rest =>
    if c.isDigit then
      if x > (2 ^ 63 - 1) / 10 then none
      else
        let y := x * 10 + ((c.toNat - 48 : Nat) : Int)
        if y > 2 ^ 63 - 1 then none
        else leadingInt y rest
    else some (x, c :: rest)

/-- `time.leadingFraction`: consume digits after the decimal point,
accumulating the digits and the power-of-ten scale, silently stopping the
accumulation (but still consuming digits) at 64-bit overflow. -/
def leadingFraction : Int → Nat → Bool → List Char → Int × Nat × List Char
  | x, scale, _, [] => (x, scale, [])
  | x, scale, overflow, c :: rest =>
    if !c.isDigit then (x, scale, c :: rest)
    else if overflow then leadingFraction x scale true rest
    else if x > (2 ^ 63 - 1) / 10 then leadingFraction x scale true rest
    else
      let y := x * 10 + ((c.toNat - 48 : Nat) : Int)
      if y > 2 ^ 63 - 1 then leadingFraction x scale true rest
      else leadingFraction y (scale * 10) false rest

/-- The unit table of `time.ParseDuration`, in nanoseconds. -/
def durationUnit (u : String) : Option Int :=
  if u == "ns" then some 1
  else if u == "us" then some 1000
  else if u == "µs" then some 1000
  else if u == "μs" then some 1000
  else if u == "ms" then some 1000000
  else if u == "s" then some 1000000000
  else if u == "m" then some 60000000000
  else if u == "h" then some 3600000000000
  else none

/-- Character starting a number inside a duration expression. -/
def isDigitOrDot (c : Char) : Bool :=
  c == '.' || c.isDigit

/-- Main loop of `time.ParseDuration`: repeatedly consume
`[0-9]*(\.[0-9]*)?` followed by a unit, accumulating nanoseconds; `none` on
any syntax error or 64-bit overflow.  The fractional contribution, which Go
computes in `float64`, is modelled by exact integer division; the inputs in
this development carry no fractional part.  Each iteration consumes at least
one character, so fuel `length + 1` never runs out. -/
def parseDurationLoop : Nat → Int → List Char → Option Int
  | 0, _, _ => none
  | fuel + 1, d, cs =>
    match cs with
    | [] => some d
    | c :: _ =>
      if !isDigitOrDot c then none
      else
        match leadingInt 0 cs with
        | none => none
        | some (v, s1) =>
          let pre := decide (s1.length ≠ cs.length)
          match
            (match s1 with
             | '.' :: rest =>
               match leadingFraction 0 1 false rest with
               | (fx, sc, r) => (fx, sc, r, decide (r.length ≠ rest.length))
             | _ => ((0 : Int), (1 : Nat), s1, false)) with
          | (f, scale, s2, post) =>
            if !pre && !post then none
            else
              let i := (s2.takeWhile (fun ch => !isDigitOrDot ch)).length
              if i == 0 then none
              else
                match durationUnit (String.mk (s2.take i)) with
                | none => none
                | some unit =>
                  if v > (2 ^ 63 - 1) / unit then none
                  else
                    let v1 := v * unit
                    let v2 := if f > 0 then v1 + f * unit / (scale : Int) else v1
                    if f > 0 && v2 > 2 ^ 63 - 1 then none
                    else
                      let d1 := d + v2
                      if d1 > 2 ^ 63 - 1 then none
                      else parseDurationLoop fuel d1 (s2.drop i)

/-- Model of `time.ParseDuration`: optional sign, the special case `"0"`,
then the main loop; the result is in nanoseconds, `none` is any parse
error. -/
def parseDuration (s : String) : Option Int :=
  let p :=
    match s.data with
    | '-' :: rest => (true, rest)
    | '+' :: rest => (false, rest)
    | cs => (false, cs)
  if p.2 == ['0'] then some 0
  else if p.2.isEmpty then none
  else
    match parseDurationLoop (p.2.length + 1) 0 p.2 with
    | none => none
    | some d => some (if p.1 then -d else d)

/-- The external validation collaborator `validator.ValidateStructField`,
opaque to the binder: given the (already mutated) target and a field name it
returns `none` or an error message. -/
abbrev Validator := List Field → String → Option String

/-- Shared tail of every assignment branch (confkey.go:291): run the external
validator on the mutated target and return its verdict. -/
def validateAfter (validate : Validator) (fields : List Field) (item : String) :
    Option (List Field × Option ConfkeyError) :=
  some (fields, (validate fields item).map ConfkeyError.validationError)

/-- The kind switch of `SetStructFieldWithKey` (confkey.go:199-289), applied
to the field `f` named `item` with the resolved raw string `value`.  `none`
models a Go runtime panic.  Branch by branch:

* slice: the `type` tag is fetched through `tag`, whose ok component is
  always `true`, so the append-single-element else branch (confkey.go:232)
  is unreachable and an unrecognized (in particular empty) mode leaves the
  slice untouched;
* int: `strconv.Atoi`, returning its error before any mutation;
* int64: only the mode `duration` does anything; the unchecked
  `*time.Duration` assertion panics on a plain `int64` field; all-digit
  strings become seconds via `Atoi` (the nanosecond product wrapping as Go
  `int64` multiplication does), everything else goes through
  `time.ParseDuration`;
* string: assign verbatim, then mode `title_string` re-assigns with the
  first rune upper-cased (ASCII model of `unicode.ToUpper`), panicking on
  the empty string (`a[0]` on an empty rune slice);
* bool: `strToBool` with its error discarded (`b, _ :=`), so the parsed
  value (false on unrecognized input) is always assigned. -/
def assignField (validate : Validator) (fields : List Field) (item : String)
    (f : Field) (value : String) : Option (List Field × Option ConfkeyError) :=
  match f.value with
  | .vStringList xs =>
    let p := tag f "type"
    let newxs :=
      if p.2 then
        if p.1 == "comma_split" then (goSplit value ',').map trimSpace
        else if p.1 == "colon_split" then xs ++ (goSplit value ':').map trimSpace
        else if p.1 == "path_split" then xs ++ (goSplit value pathListSeparator).map trimSpace
        else xs
      else xs ++ [trimSpace value]
    validateAfter validate (updateValue fields item (.vStringList newxs)) item
  | .vInt _ =>
    match atoi value with
    | none => some (fields, some .conversionError)
    | some i => validateAfter validate (updateValue fields item (.vInt i)) item
  | .vInt64 isDur _ =>
    let p := tag f "type"
    if p.2 && p.1 == "duration" then
      if !isDur then none
      else if intOnly value then
        match atoi value with
        | none => some (fields, some .conversionError)
        | some i =>
          validateAfter validate
            (updateValue fields item (.vInt64 true (toInt64 (i * 1000000000)))) item
      else
        match parseDuration value with
        | none => some (fields, some .conversionError)
        | some d => validateAfter validate (updateValue fields item (.vInt64 true d)) item
    else validateAfter validate fields item
  | .vString _ =>
    let fields1 := updateValue fields item (.vString value)
    let p := tag f "type"
    if p.2 && p.1 == "title_string" then
      match value.data with
      | [] => none
      | c :: rest =>
        validateAfter validate (updateValue fields1 item (.vString (String.mk (Char.toUpper c :: rest)))) item
    else validateAfter validate fields1 item
  | .vBool _ =>
    validateAfter validate (updateValue fields item (.vBool (strToBool value).1)) item

/-- The environment override (confkey.go:191-195): when the field's
`environment` tag names a set variable, its value replaces the raw value;
the enclosing ok test is the constant-true second component of `tag`.  A
field without the tag yields the empty name, which `lookupEnv` never
finds. -/
def resolveValue (env : Env) (f : Field) (value : String) : String :=
  let p := tag f "environment"
  if p.2 then
    match lookupEnv env p.1 with
    | some v => v
    | none => value
  else value

/-- `SetStructFieldWithKey` (confkey.go:181): reject non-pointer targets,
look the field up by key, resolve the raw value against the environment,
convert and assign, validate.  The result pairs the final target with the
returned error; `none` models a panic.  The inner `findField` cannot miss
(the item name came from the same list); its `none` branch mirrors the
switch falling through to validation on an invalid field value. -/
def SetStructFieldWithKey (validate : Validator) (env : Env) (isPtr : Bool)
    (fields : List Field) (key : String) (value : String) :
    Option (List Field × Option ConfkeyError) :=
  if !isPtr then some (fields, some .notAPointer)
  else
    match fieldWithKey fields key with
    | .error e => some (fields, some e)
    | .ok item =>
      match findField fields item with
      | none => validateAfter validate fields item
      | some f => assignField validate fields item f (resolveValue env f value)

/-- Loop body of `SetStructDefaults` (confkey.go:64-74): walk the field
names gathered up front, and for every field carrying both a `confkey` and a
`default` tag assign the default through `SetStructFieldWithKey`, stopping
at the first error (the fields already assigned keep their new values). -/
def setStructDefaultsLoop (validate : Validator) (env : Env) :
    List String → List Field → Option (List Field × Option ConfkeyError)
  | [], fields => some (fields, none)
  | n :: rest, fields =>
    match findField fields n with
    | none => setStructDefaultsLoop validate env rest fields
    | some f =>
      let ck := getFieldTag f "confkey"
      let df := getFieldTag f "default"
      if ck != "" && df != "" then
        match SetStructFieldWithKey validate env true fields ck df with
        | none => none
        | some (fields1, some e) => some (fields1, some e)
        | some (fields1, none) => setStructDefaultsLoop validate env rest fields1
      else setStructDefaultsLoop validate env rest fields

/-- `SetStructDefaults` (confkey.go:54): reject non-pointer targets, then
apply every tagged default in declaration order. -/
def SetStructDefaults (validate : Validator) (env : Env) (isPtr : Bool)
    (fields : List Field) : Option (List Field × Option ConfkeyError) :=
  if !isPtr then some (fields, some .notAPointer)
  else setStructDefaultsLoop validate env (fields.map (fun f => f.name)) fields

/-- `getFieldValAndKind` (confkey.go:161): field lookup by key, then the
field's value (which carries its kind). -/
def getFieldValAndKind (fields : List Field) (key : String) : Except ConfkeyError FieldValue :=
  match fieldWithKey fields key with
  | .error e => .error e
  | .ok item =>
    match findField fields item with
    | none => .error .fieldNotFound
    | some f => .ok f.value

/-- `StringFieldWithKey` (confkey.go:80): the field's string, "" when the
key is unknown or the kind is not String. -/
def StringFieldWithKey (fields : List Field) (key : String) : String :=
  match getFieldValAndKind fields key with
  | .ok (.vString s) => s
  | _ => ""

/-- `StringListWithKey` (confkey.go:97): the field's string slice, empty
when the key is unknown or the kind is not Slice. -/
def StringListWithKey (fields : List Field) (key : String) : List String :=
  match getFieldValAndKind fields key with
  | .ok (.vStringList xs) => xs
  | _ => []

/-- `BoolWithKey` (confkey.go:114): the field's boolean, false when the key
is unknown or the kind is not Bool. -/
def BoolWithKey (fields : List Field) (key : String) : Bool :=
  match getFieldValAndKind fields key with
  | .ok (.vBool b) => b
  | _ => false

/-- `IntWithKey` (confkey.go:131): the field's integer, 0 when the key is
unknown or the kind is not Int. -/
def IntWithKey (fields : List Field) (key : String) : Int :=
  match getFieldValAndKind fields key with
  | .ok (.vInt n) => n
  | _ => 0

/-- `Int64WithKey` (confkey.go:148): the field's 64-bit integer, 0 when the
key is unknown or the kind is not Int64.  Unlike the other accessors the
type assertion `val.(int64)` is unchecked, so a `time.Duration` field (kind
Int64, concrete type not `int64`) panics, modelled by `none`. -/
def Int64WithKey (fields : List Field) (key : String) : Option Int :=
  match getFieldValAndKind fields key with
  | .ok (.vInt64 isDur n) => if isDur then none else some n
  | _ => some 0

/-- Upper-casing of the first character of a nonempty string (ASCII model of
`unicode.ToUpper`), the net effect of the `title_string` branch on a
nonempty raw value. -/
def titleCase (s : String) : String :=
  match s.data with
  | [] => s
  | c :: rest => String.mk (Char.toUpper c :: rest)

/-! General lemmas shared by the claim theorems. -/

/-- On any input, `strToBool` either parses to false or reports no error:
the only error branch carries the value false. -/
theorem strToBool_cases (s : String) : (strToBool s).1 = false ∨ (strToBool s).2 = none := by
  simp only [strToBool]
  split
  · exact Or.inr rfl
  · split
    · exact Or.inl rfl
    · exact Or.inl rfl

/-- Reduction of `SetStructFieldWithKey` on a pointer target once the key
has been resolved to a field: environment resolution followed by the kind
switch. -/
theorem setField_run (validate : Validator) (env : Env) (fields : List Field)
    (key raw item : String) (f : Field)
    (hitem : fieldWithKey fields key = .ok item)
    (hf : findField fields item = some f) :
    SetStructFieldWithKey validate env true fields key raw
      = assignField validate fields item f (resolveValue env f raw) := by
  simp only [SetStructFieldWithKey, Bool.not_true, if_neg, hitem, hf]
  rfl

/-- When the field's environment variable is unset the raw value passes
through resolution unchanged. -/
theorem resolveValue_miss (env : Env) (f : Field) (value : String)
    (h : lookupEnv env (getFieldTag f "environment") = none) :
    resolveValue env f value = value := by
  simp [resolveValue, tag, h]

/-- When the field's environment variable is set its value replaces the raw
value during resolution. -/
theorem resolveValue_hit (env : Env) (f : Field) (value v : String)
    (h : lookupEnv env (getFieldTag f "environment") = some v) :
    resolveValue env f value = v := by
  simp [resolveValue, tag, h]

/-- Two successive in-place writes to the same field leave the second
value. -/
theorem updateValue_updateValue (fields : List Field) (item : String) (v w : FieldValue) :
    updateValue (updateValue fields item v) item w = updateValue fields item w := by
  induction fields with
  | nil => rfl
  | cons f rest ih =>
    by_cases h : f.name == item
    · simp [updateValue, h]
    · simp [updateValue, h, ih]

/-- An empty environment answers no lookup. -/
theorem lookupEnv_nil (key : String) : lookupEnv [] key = none := by
  simp [lookupEnv]

/-! Claim theorems. -/

/-- C1, counterexample: on a boolean field with prior value true, the raw
string "maybe" is not recognized as a boolean word, yet
`SetStructFieldWithKey` returns without any error and overwrites the field
with false — the claim asserts a `ConversionError` and an unchanged field,
so it is false at this input (the source discards the `strToBool` error with
`b, _ :=` and assigns `b` unconditionally). -/
theorem c1_counterexample :
    SetStructFieldWithKey (fun _ _ => none) [] true
      [Field.mk "Choice" (some "choice") none none none (.vBool true)] "choice" "maybe"
    = some ([Field.mk "Choice" (some "choice") none none none (.vBool false)], none) := by
  decide

/-- C1, amended: for every boolean-kinded field and every raw string not
recognized as a boolean word, `SetStructFieldWithKey` reports no conversion
error: the `strToBool` failure is discarded, false is assigned to the field
(overwriting its prior value), and only the external validator's verdict is
returned. -/
theorem c1_amended (validate : Validator) (env : Env) (fields : List Field)
    (key raw item : String) (f : Field) (b : Bool)
    (hitem : fieldWithKey fields key = .ok item)
    (hf : findField fields item = some f)
    (henv : lookupEnv env (getFieldTag f "environment") = none)
    (hval : f.value = .vBool b)
    (hbad : (strToBool raw).2 ≠ none) :
    SetStructFieldWithKey validate env true fields key raw
      = validateAfter validate (updateValue fields item (.vBool false)) item := by
  rw [setField_run validate env fields key raw item f hitem hf,
      resolveValue_miss env f raw henv]
  have hfalse : (strToBool raw).1 = false := by
    rcases strToBool_cases raw with h | h
    · exact h
    · exact absurd h hbad
  simp [assignField, hval, hfalse]

/-- C1, witness: a boolean field holding true, set with the unrecognized
word "definitely", ends up false with no error returned. -/
theorem c1_witness :
    SetStructFieldWithKey (fun _ _ => none) [] true
      [Field.mk "Switch" (some "switch") none none none (.vBool true)] "switch" "definitely"
    = some ([Field.mk "Switch" (some "switch") none none none (.vBool false)], none) :=
  (c1_amended (fun _ _ => none) []
    [Field.mk "Switch" (some "switch") none none none (.vBool true)] "switch" "definitely"
    "Switch" (Field.mk "Switch" (some "switch") none none none (.vBool true)) true
    rfl rfl rfl rfl (by decide)).trans (by decide)

/-- C2: a sequence-of-string field that declares no conversion-mode tag is
left completely untouched by `SetStructFieldWithKey` — the raw value "a" is
NOT appended.  The tag helper returns a nil error for every exported field
(an absent tag reads as the empty string), so the append-one-trimmed-element
else branch at confkey.go:232 is unreachable and the empty mode string falls
through the switch.  This contradicts the claim (and the dead branch in the
source, which implements exactly the claimed behavior), so the code, not
the claim, is at fault. -/
theorem c2_dead_append :
    SetStructFieldWithKey (fun _ _ => none) [] true
      [Field.mk "Servers" (some "servers") none none none (.vStringList [])] "servers" "a"
    = some ([Field.mk "Servers" (some "servers") none none none (.vStringList [])], none) := by
  decide

/-- C3, counterexample: on a string field with mode `title_string`, the
empty raw string makes `SetStructFieldWithKey` panic (index out of range on
`a[0]` of an empty rune slice) instead of returning normally — the claim
asserts the first-character access is in bounds for every raw string
including the empty one. -/
theorem c3_counterexample :
    SetStructFieldWithKey (fun _ _ => none) [] true
      [Field.mk "Mode" (some "mode") none none (some "title_string") (.vString "x")] "mode" ""
    = none := by
  decide

/-- C3, amended: for every string-kinded field with conversion mode
`title_string` and every NONEMPTY raw string, `SetStructFieldWithKey`
returns normally and assigns the raw string with its first character
upper-cased; the empty raw string instead panics with an out-of-range
index. -/
theorem c3_amended (validate : Validator) (env : Env) (fields : List Field)
    (key raw item : String) (f : Field) (s0 : String)
    (hitem : fieldWithKey fields key = .ok item)
    (hf : findField fields item = some f)
    (henv : lookupEnv env (getFieldTag f "environment") = none)
    (htag : f.typeTag = some "title_string")
    (hval : f.value = .vString s0)
    (hraw : raw ≠ "") :
    SetStructFieldWithKey validate env true fields key raw
      = validateAfter validate (updateValue fields item (.vString (titleCase raw))) item := by
  rw [setField_run validate env fields key raw item f hitem hf,
      resolveValue_miss env f raw henv]
  obtain ⟨cs⟩ := raw
  cases cs with
  | nil => exact absurd rfl hraw
  | cons c rest =>
    simp [assignField, hval, tag, getFieldTag, htag, titleCase, updateValue_updateValue]

/-- C3, witness: a `title_string` field set with "server" holds "Server"
afterwards, with no error. -/
theorem c3_witness :
    SetStructFieldWithKey (fun _ _ => none) [] true
      [Field.mk "Mode" (some "mode") none none (some "title_string") (.vString "x")] "mode" "server"
    = some ([Field.mk "Mode" (some "mode") none none (some "title_string") (.vString "Server")], none) :=
  (c3_amended (fun _ _ => none) []
    [Field.mk "Mode" (some "mode") none none (some "title_string") (.vString "x")] "mode" "server"
    "Mode" (Field.mk "Mode" (some "mode") none none (some "title_string") (.vString "x")) "x"
    rfl rfl rfl rfl rfl (by decide)).trans (by decide)

/-- C4: for every field declaring an environment-variable name, when that
variable is set, running `SetStructFieldWithKey` with any raw value equals
running it with the variable's value under an empty environment (the
environment value is converted and assigned instead of the raw value,
whatever the conversion mode); when the variable is unset the raw value
passes through unchanged (the run equals the empty-environment run on the
same raw value). -/
theorem c4_env_override (validate : Validator) (env : Env) (fields : List Field)
    (key raw item : String) (f : Field) (e v : String)
    (hitem : fieldWithKey fields key = .ok item)
    (hf : findField fields item = some f)
    (he : f.environment = some e) :
    (lookupEnv env e = some v →
        SetStructFieldWithKey validate env true fields key raw
          = SetStructFieldWithKey validate [] true fields key v)
  ∧ (lookupEnv env e = none →
        SetStructFieldWithKey validate env true fields key raw
          = SetStructFieldWithKey validate [] true fields key raw) := by
  have hge : getFieldTag f "environment" = e := by simp [getFieldTag, he]
  constructor
  · intro h
    rw [setField_run validate env fields key raw item f hitem hf,
        setField_run validate [] fields key v item f hitem hf,
        resolveValue_hit env f raw v (hge ▸ h),
        resolveValue_miss [] f v (lookupEnv_nil _)]
  · intro h
    rw [setField_run validate env fields key raw item f hitem hf,
        setField_run validate [] fields key raw item f hitem hf,
        resolveValue_miss env f raw (hge ▸ h),
        resolveValue_miss [] f raw (lookupEnv_nil _)]

/-- C4, witness: with SERVERS bound to "x, y" in the environment, setting
the field with raw value "raw" equals setting it with "x, y"; with SERVERS
unset, the raw value is used unchanged. -/
theorem c4_witness :
    (SetStructFieldWithKey (fun _ _ => none) [("SERVERS", "x, y")] true
        [Field.mk "Servers" (some "servers") none (some "SERVERS") (some "comma_split") (.vStringList [])]
        "servers" "raw"
      = SetStructFieldWithKey (fun _ _ => none) [] true
          [Field.mk "Servers" (some "servers") none (some "SERVERS") (some "comma_split") (.vStringList [])]
          "servers" "x, y")
  ∧ (SetStructFieldWithKey (fun _ _ => none) [("OTHER", "z")] true
        [Field.mk "Servers" (some "servers") none (some "SERVERS") (some "comma_split") (.vStringList [])]
        "servers" "raw"
      = SetStructFieldWithKey (fun _ _ => none) [] true
          [Field.mk "Servers" (some "servers") none (some "SERVERS") (some "comma_split") (.vStringList [])]
          "servers" "raw") :=
  ⟨(c4_env_override (fun _ _ => none) [("SERVERS", "x, y")]
      [Field.mk "Servers" (some "servers") none (some "SERVERS") (some "comma_split") (.vStringList [])]
      "servers" "raw" "Servers"
      (Field.mk "Servers" (some "servers") none (some "SERVERS") (some "comma_split") (.vStringList []))
      "SERVERS" "x, y" rfl rfl rfl).1 rfl,
   (c4_env_override (fun _ _ => none) [("OTHER", "z")]
      [Field.mk "Servers" (some "servers") none (some "SERVERS") (some "comma_split") (.vStringList [])]
      "servers" "raw" "Servers"
      (Field.mk "Servers" (some "servers") none (some "SERVERS") (some "comma_split") (.vStringList []))
      "SERVERS" "x, y" rfl rfl rfl).2 rfl⟩

/-- C5: for every sequence-of-string field with mode `comma_split`, the
field's contents are replaced entirely (the right-hand side does not depend
on the prior contents `xs`, so a second call leaves nothing from the first)
by the raw string split on ",", each part trimmed and empty parts kept;
the error returned is just the validator's verdict. -/
theorem c5_comma_split (validate : Validator) (env : Env) (fields : List Field)
    (key raw item : String) (f : Field) (xs : List String)
    (hitem : fieldWithKey fields key = .ok item)
    (hf : findField fields item = some f)
    (henv : lookupEnv env (getFieldTag f "environment") = none)
    (htag : f.typeTag = some "comma_split")
    (hval : f.value = .vStringList xs) :
    SetStructFieldWithKey validate env true fields key raw
      = validateAfter validate
          (updateValue fields item (.vStringList ((goSplit raw ',').map trimSpace))) item := by
  rw [setField_run validate env fields key raw item f hitem hf,
      resolveValue_miss env f raw henv]
  simp [assignField, hval, tag, getFieldTag, htag]

/-- C5, witness: "a, b ,c" replaces ["old", "stuff"] with ["a", "b", "c"];
a further call with "d,,e" leaves ["d", "", "e"] — empty parts kept, no
leftovers from the previous call. -/
theorem c5_witness :
    (SetStructFieldWithKey (fun _ _ => none) [] true
        [Field.mk "Collectives" (some "collectives") none none (some "comma_split") (.vStringList ["old", "stuff"])]
        "collectives" "a, b ,c"
      = some ([Field.mk "Collectives" (some "collectives") none none (some "comma_split") (.vStringList ["a", "b", "c"])], none))
  ∧ (SetStructFieldWithKey (fun _ _ => none) [] true
        [Field.mk "Collectives" (some "collectives") none none (some "comma_split") (.vStringList ["a", "b", "c"])]
        "collectives" "d,,e"
      = some ([Field.mk "Collectives" (some "collectives") none none (some "comma_split") (.vStringList ["d", "", "e"])], none)) :=
  ⟨(c5_comma_split (fun _ _ => none) []
      [Field.mk "Collectives" (some "collectives") none none (some "comma_split") (.vStringList ["old", "stuff"])]
      "collectives" "a, b ,c" "Collectives"
      (Field.mk "Collectives" (some "collectives") none none (some "comma_split") (.vStringList ["old", "stuff"]))
      ["old", "stuff"] rfl rfl rfl rfl rfl).trans (by decide),
   (c5_comma_split (fun _ _ => none) []
      [Field.mk "Collectives" (some "collectives") none none (some "comma_split") (.vStringList ["a", "b", "c"])]
      "collectives" "d,,e" "Collectives"
      (Field.mk "Collectives" (some "collectives") none none (some "comma_split") (.vStringList ["a", "b", "c"]))
      ["a", "b", "c"] rfl rfl rfl rfl rfl).trans (by decide)⟩

/-- C6: for every sequence-of-string field with mode `colon_split`, the raw
string is split on ":", each part trimmed, and the parts are appended after
the existing contents `xs` without clearing them. -/
theorem c6_colon_split (validate : Validator) (env : Env) (fields : List Field)
    (key raw item : String) (f : Field) (xs : List String)
    (hitem : fieldWithKey fields key = .ok item)
    (hf : findField fields item = some f)
    (henv : lookupEnv env (getFieldTag f "environment") = none)
    (htag : f.typeTag = some "colon_split")
    (hval : f.value = .vStringList xs) :
    SetStructFieldWithKey validate env true fields key raw
      = validateAfter validate
          (updateValue fields item (.vStringList (xs ++ (goSplit raw ':').map trimSpace))) item := by
  rw [setField_run validate env fields key raw item f hitem hf,
      resolveValue_miss env f raw henv]
  simp [assignField, hval, tag, getFieldTag, htag]

/-- C6, witness: "a:b:c" appended to an empty field gives three elements,
and a second identical call accumulates to six. -/
theorem c6_witness :
    (SetStructFieldWithKey (fun _ _ => none) [] true
        [Field.mk "Libdir" (some "libdir") none none (some "colon_split") (.vStringList [])]
        "libdir" "a:b:c"
      = some ([Field.mk "Libdir" (some "libdir") none none (some "colon_split") (.vStringList ["a", "b", "c"])], none))
  ∧ (SetStructFieldWithKey (fun _ _ => none) [] true
        [Field.mk "Libdir" (some "libdir") none none (some "colon_split") (.vStringList ["a", "b", "c"])]
        "libdir" "a:b:c"
      = some ([Field.mk "Libdir" (some "libdir") none none (some "colon_split") (.vStringList ["a", "b", "c", "a", "b", "c"])], none))
  ∧ ([ "a", "b", "c", "a", "b", "c" ] : List String).length = 6 :=
  ⟨(c6_colon_split (fun _ _ => none) []
      [Field.mk "Libdir" (some "libdir") none none (some "colon_split") (.vStringList [])]
      "libdir" "a:b:c" "Libdir"
      (Field.mk "Libdir" (some "libdir") none none (some "colon_split") (.vStringList []))
      [] rfl rfl rfl rfl rfl).trans (by decide),
   (c6_colon_split (fun _ _ => none) []
      [Field.mk "Libdir" (some "libdir") none none (some "colon_split") (.vStringList ["a", "b", "c"])]
      "libdir" "a:b:c" "Libdir"
      (Field.mk "Libdir" (some "libdir") none none (some "colon_split") (.vStringList ["a", "b", "c"]))
      ["a", "b", "c"] rfl rfl rfl rfl rfl).trans (by decide),
   by decide⟩

/-- C7, counterexample: the raw string "9223372036854775808" (2^63) is all
digits, yet the duration field is not set to that many seconds: `Atoi`
rejects it as out of the 64-bit range, so `SetStructFieldWithKey` returns a
conversion error and leaves the field unchanged — the claim's "all digits
are interpreted as that many seconds" is false at this input. -/
theorem c7_counterexample :
    intOnly "9223372036854775808" = true
  ∧ SetStructFieldWithKey (fun _ _ => none) [] true
      [Field.mk "I" (some "interval") none none (some "duration") (.vInt64 true 7)]
      "interval" "9223372036854775808"
    = some ([Field.mk "I" (some "interval") none none (some "duration") (.vInt64 true 7)], some .conversionError) := by
  constructor
  · decide
  · decide

/-- C7, amended: for every duration-mode 64-bit field, an all-digits raw
string within the signed 64-bit range is interpreted as that many seconds
(the nanosecond count wrapping modulo 2^64 as Go int64 multiplication
does); an all-digits string beyond that range fails with a conversion error
leaving the field unchanged; any other raw string is parsed as a duration
expression with unit suffixes, a malformed one failing with a conversion
error that leaves the field unchanged. -/
theorem c7_amended (validate : Validator) (env : Env) (fields : List Field)
    (key raw item : String) (f : Field) (n : Int)
    (hitem : fieldWithKey fields key = .ok item)
    (hf : findField fields item = some f)
    (henv : lookupEnv env (getFieldTag f "environment") = none)
    (htag : f.typeTag = some "duration")
    (hval : f.value = .vInt64 true n) :
    (∀ i, intOnly raw = true → atoi raw = some i →
        SetStructFieldWithKey validate env true fields key raw
          = validateAfter validate
              (updateValue fields item (.vInt64 true (toInt64 (i * 1000000000)))) item)
  ∧ (intOnly raw = true → atoi raw = none →
        SetStructFieldWithKey validate env true fields key raw
          = some (fields, some .conversionError))
  ∧ (∀ d, intOnly raw = false → parseDuration raw = some d →
        SetStructFieldWithKey validate env true fields key raw
          = validateAfter validate (updateValue fields item (.vInt64 true d)) item)
  ∧ (intOnly raw = false → parseDuration raw = none →
        SetStructFieldWithKey validate env true fields key raw
          = some (fields, some .conversionError)) := by
  rw [setField_run validate env fields key raw item f hitem hf,
      resolveValue_miss env f raw henv]
  refine ⟨fun i h1 h2 => ?_, fun h1 h2 => ?_, fun d h1 h2 => ?_, fun h1 h2 => ?_⟩ <;>
    simp [assignField, hval, tag, getFieldTag, htag, h1, h2]

/-- C7, witness: "3600" yields 3600 seconds, "1h" yields 3600 seconds, and
"bogus" yields a conversion error leaving the field unchanged. -/
theorem c7_witness :
    (SetStructFieldWithKey (fun _ _ => none) [] true
        [Field.mk "I" (some "interval") none none (some "duration") (.vInt64 true 7)] "interval" "3600"
      = some ([Field.mk "I" (some "interval") none none (some "duration") (.vInt64 true 3600000000000)], none))
  ∧ (SetStructFieldWithKey (fun _ _ => none) [] true
        [Field.mk "I" (some "interval") none none (some "duration") (.vInt64 true 7)] "interval" "1h"
      = some ([Field.mk "I" (some "interval") none none (some "duration") (.vInt64 true 3600000000000)], none))
  ∧ (SetStructFieldWithKey (fun _ _ => none) [] true
        [Field.mk "I" (some "interval") none none (some "duration") (.vInt64 true 7)] "interval" "bogus"
      = some ([Field.mk "I" (some "interval") none none (some "duration") (.vInt64 true 7)], some .conversionError)) :=
  ⟨((c7_amended (fun _ _ => none) []
      [Field.mk "I" (some "interval") none none (some "duration") (.vInt64 true 7)] "interval" "3600" "I"
      (Field.mk "I" (some "interval") none none (some "duration") (.vInt64 true 7)) 7
      rfl rfl rfl rfl rfl).1 3600 (by decide) (by decide)).trans (by decide),
   ((c7_amended (fun _ _ => none) []
      [Field.mk "I" (some "interval") none none (some "duration") (.vInt64 true 7)] "interval" "1h" "I"
      (Field.mk "I" (some "interval") none none (some "duration") (.vInt64 true 7)) 7
      rfl rfl rfl rfl rfl).2.2.1 3600000000000 (by decide) (by decide)).trans (by decide),
   (c7_amended (fun _ _ => none) []
      [Field.mk "I" (some "interval") none none (some "duration") (.vInt64 true 7)] "interval" "bogus" "I"
      (Field.mk "I" (some "interval") none none (some "duration") (.vInt64 true 7)) 7
      rfl rfl rfl rfl rfl).2.2.2 (by decide) (by decide)⟩

/-- C8: for every target and key, each typed accessor returns its kind's
zero value (empty string, empty list, false, 0) whenever the key matches no
field (any lookup error) or the matched field's reflect kind differs from
the accessor's kind; none of the accessors has an error channel at all
(their result types carry no error). -/
theorem c8_accessors (fields : List Field) (key : String) :
    (∀ e, getFieldValAndKind fields key = .error e →
        StringFieldWithKey fields key = "" ∧ StringListWithKey fields key = []
          ∧ BoolWithKey fields key = false ∧ IntWithKey fields key = 0
          ∧ Int64WithKey fields key = some 0)
  ∧ (∀ v, getFieldValAndKind fields key = .ok v →
        (v.kind ≠ .kString → StringFieldWithKey fields key = "")
      ∧ (v.kind ≠ .kSlice → StringListWithKey fields key = [])
      ∧ (v.kind ≠ .kBool → BoolWithKey fields key = false)
      ∧ (v.kind ≠ .kInt → IntWithKey fields key = 0)
      ∧ (v.kind ≠ .kInt64 → Int64WithKey fields key = some 0)) := by
  constructor
  · intro e h
    simp [StringFieldWithKey, StringListWithKey, BoolWithKey, IntWithKey, Int64WithKey, h]
  · intro v h
    refine ⟨fun hk => ?_, fun hk => ?_, fun hk => ?_, fun hk => ?_, fun hk => ?_⟩ <;>
      cases v <;>
      simp_all [StringFieldWithKey, StringListWithKey, BoolWithKey, IntWithKey,
        Int64WithKey, FieldValue.kind]

/-- C8, witness: on a target with one boolean field, an undeclared key gives
every accessor's zero value, and the two kind-mismatched accessors on the
declared key give "" and 0. -/
theorem c8_witness :
    (StringFieldWithKey [Field.mk "B" (some "b") none none none (.vBool true)] "nope" = ""
      ∧ StringListWithKey [Field.mk "B" (some "b") none none none (.vBool true)] "nope" = []
      ∧ BoolWithKey [Field.mk "B" (some "b") none none none (.vBool true)] "nope" = false
      ∧ IntWithKey [Field.mk "B" (some "b") none none none (.vBool true)] "nope" = 0
      ∧ Int64WithKey [Field.mk "B" (some "b") none none none (.vBool true)] "nope" = some 0)
  ∧ (StringFieldWithKey [Field.mk "B" (some "b") none none none (.vBool true)] "b" = "")
  ∧ (IntWithKey [Field.mk "B" (some "b") none none none (.vBool true)] "b" = 0) :=
  ⟨(c8_accessors [Field.mk "B" (some "b") none none none (.vBool true)] "nope").1
      .fieldNotFound rfl,
   ((c8_accessors [Field.mk "B" (some "b") none none none (.vBool true)] "b").2
      (.vBool true) rfl).1 (by decide),
   ((c8_accessors [Field.mk "B" (some "b") none none none (.vBool true)] "b").2
      (.vBool true) rfl).2.2.2.1 (by decide)⟩

/-- C9: both mutating operations reject a target that is not passed by
pointer with the not-a-pointer error ("pointer is required") and return the
target with every field unmutated. -/
theorem c9_not_a_pointer (validate : Validator) (env : Env) (fields : List Field)
    (key value : String) :
    SetStructFieldWithKey validate env false fields key value
        = some (fields, some .notAPointer)
      ∧ SetStructDefaults validate env false fields
        = some (fields, some .notAPointer) := by
  constructor <;> rfl

/-- C10: for every 64-bit-integer field whose type tag is not "duration",
`SetStructFieldWithKey` ignores the raw string entirely: the target is
returned with every field unchanged and the only possible error is the
validator's — never a conversion error. -/
theorem c10_int64_passthrough (validate : Validator) (env : Env) (fields : List Field)
    (key raw item : String) (f : Field) (isDur : Bool) (n : Int)
    (hitem : fieldWithKey fields key = .ok item)
    (hf : findField fields item = some f)
    (htag : getFieldTag f "type" ≠ "duration")
    (hval : f.value = .vInt64 isDur n) :
    SetStructFieldWithKey validate env true fields key raw
      = validateAfter validate fields item := by
  rw [setField_run validate env fields key raw item f hitem hf]
  simp [assignField, hval, tag, htag]

/-- C10, witness: a plain int64 field with no type tag keeps its value 42
and no error is reported when set with an arbitrary raw string. -/
theorem c10_witness :
    SetStructFieldWithKey (fun _ _ => none) [] true
      [Field.mk "N" (some "num") none none none (.vInt64 false 42)] "num" "whatever"
    = some ([Field.mk "N" (some "num") none none none (.vInt64 false 42)], none) :=
  (c10_int64_passthrough (fun _ _ => none) []
    [Field.mk "N" (some "num") none none none (.vInt64 false 42)] "num" "whatever" "N"
    (Field.mk "N" (some "num") none none none (.vInt64 false 42)) false 42
    rfl rfl (by decide) rfl).trans (by decide)

end Confkey
